import Mathlib

/-!
Verification development for the ship-detection pipeline.

The development shallowly embeds the two source files:

* `raw_ais.py` / the identical `build_ais` of `pipeline.py`: ingestion of AIS
  position reports — column renames, quality filters, the heading sentinel
  replacement, the sort by `[mmsi, utc]` and the per-vessel `ping` cumulative
  count that together form the `(mmsi, ping)` index.
* `pipeline.py`'s `build_chips`: the spatio-temporal join of reports against
  satellite footprints (`gpd.sjoin` with `predicate="within"`, followed by the
  ±5-minute temporal filter) and the dead-reckoning prediction columns.

Timestamps are embedded as integer seconds (`ℤ`); coordinate, speed and course
columns as rationals (`ℚ`); the trigonometric prediction columns as reals.
Footprint geometries are embedded as axis-aligned rectangles, which is enough
to realise concretely the containment semantics the source delegates to
shapely: `predicate="within"` for a point and a polygon is DE-9IM interior
containment, so a point exactly on the polygon boundary is *not* within it.
-/

/-- One AIS row after the column renames of `raw_ais.build` (`MMSI → mmsi`,
`BaseDateTime → utc`, `LAT → lat`, `LON → lon`, `SOG → sog`, `COG → cog`,
`Heading → heading`, `Length → length`, `TransceiverClass → transceiver_class`).
Passthrough columns not read by the core (name, imo, call sign, …) are omitted.
`utc` is seconds since the epoch. -/
structure RawReport where
  mmsi : ℤ
  utc : ℤ
  lat : ℚ
  lon : ℚ
  sog : ℚ
  cog : ℚ
  heading : ℚ
  length : ℚ
  transceiver_class : String
deriving DecidableEq, Repr

/-- A cleaned, indexed position report: one row of the frame returned by
`raw_ais.build` (equivalently `pipeline.build_ais`), carrying the
`(mmsi, ping)` index as fields.  `heading` is `none` when the 511
non-respondent sentinel was replaced by NaN. -/
structure Report where
  mmsi : ℤ
  ping : ℕ
  utc : ℤ
  lat : ℚ
  lon : ℚ
  sog : ℚ
  cog : ℚ
  heading : Option ℚ
  length : ℚ
deriving DecidableEq, Repr

/-- Filter `ais[ais.transceiver_class == "A"]`. -/
def keepTransceiverA (r : RawReport) : Bool :=
  r.transceiver_class == "A"

/-- Filter `ais[(ais.sog > 1) & (ais.sog < 80)]`. -/
def keepSog (r : RawReport) : Bool :=
  decide (1 < r.sog ∧ r.sog < 80)

/-- Filter `ais[(ais.length > 30) & (ais.length < 400)]`. -/
def keepLength (r : RawReport) : Bool :=
  decide (30 < r.length ∧ r.length < 400)

/-- The sentinel replacement `ais.replace({"heading": {511: np.nan}})`,
with an absent value embedded as `none`. -/
def replaceHeading (h : ℚ) : Option ℚ :=
  if h = 511 then none else some h

/-- The comparison realised by `sort_values(by=["mmsi", "utc"])`:
lexicographic on the `(mmsi, utc)` pair, ascending. -/
def lexLe (a b : RawReport) : Bool :=
  decide (a.mmsi < b.mmsi ∨ (a.mmsi = b.mmsi ∧ a.utc ≤ b.utc))

/-- The pandas `groupby("mmsi").cumcount()`: each row is tagged with the
number of rows of the same `mmsi` seen before it, the running tally being
carried in `cnt`. -/
def cumcountFrom (cnt : ℤ → ℕ) : List RawReport → List (RawReport × ℕ)
  | [] => []
  | r :: rs =>
      (r, cnt r.mmsi) ::
        cumcountFrom (fun v => if v = r.mmsi then cnt v + 1 else cnt v) rs

/-- Assembles one indexed report from a raw row and its cumcount value.
The heading sentinel replacement commutes with the sort (the sort keys are
`mmsi` and `utc` only), so it is applied here, per row. -/
def mkReport (r : RawReport) (ping : ℕ) : Report :=
  { mmsi := r.mmsi, ping := ping, utc := r.utc, lat := r.lat, lon := r.lon,
    sog := r.sog, cog := r.cog, heading := replaceHeading r.heading,
    length := r.length }

/-- The body of `raw_ais.build` (and of the identical `pipeline.build_ais`)
after the download: the three quality filters, the heading sentinel
replacement, the sort by `[mmsi, utc]`, and the per-`mmsi` cumulative count
assigned as the `ping` level of the index. -/
def build (rows : List RawReport) : List Report :=
  let filtered := ((rows.filter keepTransceiverA).filter keepSog).filter keepLength
  let sorted := filtered.mergeSort lexLe
  (cumcountFrom (fun _ => 0) sorted).map (fun p => mkReport p.1 p.2)

/-- A footprint geometry, embedded as an axis-aligned rectangle in
(longitude, latitude) coordinates. -/
structure Geometry where
  lonMin : ℚ
  lonMax : ℚ
  latMin : ℚ
  latMax : ℚ
deriving DecidableEq, Repr

/-- Shapely's `within` predicate for a point against a rectangle polygon:
DE-9IM interior containment, i.e. strict inequality on all four sides.  A
point exactly on the boundary is not within the polygon. -/
def pointWithin (lon lat : ℚ) (g : Geometry) : Bool :=
  decide (g.lonMin < lon ∧ lon < g.lonMax ∧ g.latMin < lat ∧ lat < g.latMax)

/-- Closure membership for a point against a rectangle polygon (interior or
boundary): non-strict inequality on all four sides. -/
def pointCovered (lon lat : ℚ) (g : Geometry) : Bool :=
  decide (g.lonMin ≤ lon ∧ lon ≤ g.lonMax ∧ g.latMin ≤ lat ∧ lat ≤ g.latMax)

/-- Membership in the boundary of a rectangle polygon: in the closure but not
in the interior. -/
def pointOnBoundary (lon lat : ℚ) (g : Geometry) : Bool :=
  pointCovered lon lat g && !pointWithin lon lat g

/-- A degenerate rectangle: one whose interior is empty. -/
def Geometry.isEmptyGeom (g : Geometry) : Bool :=
  decide (g.lonMax ≤ g.lonMin ∨ g.latMax ≤ g.latMin)

/-- One row of the footprint frame built by `build_tiles`: `id` index,
polygon `geometry`, capture instant `date` (seconds since the epoch). -/
structure Tile where
  id : String
  geometry : Geometry
  date : ℤ
deriving DecidableEq, Repr

/-- A footprint row after `build_chips` has assigned the two buffer columns. -/
structure BufferedTile where
  id : String
  geometry : Geometry
  date : ℤ
  buffer_start_time : ℤ
  buffer_end_time : ℤ
deriving DecidableEq, Repr

/-- The `pd.Timedelta(minutes=5)` buffer, in seconds. -/
def bufferSeconds : ℤ := 300

/-- The column assignments
`sat_tiles["buffer_start_time"] = sat_tiles["date"] - buffer` and
`sat_tiles["buffer_end_time"] = sat_tiles["date"] + buffer`. -/
def addBuffer (t : Tile) : BufferedTile :=
  { id := t.id, geometry := t.geometry, date := t.date,
    buffer_start_time := t.date - bufferSeconds,
    buffer_end_time := t.date + bufferSeconds }

/-- Forgets the buffer columns of a buffered footprint row. -/
def BufferedTile.toTile (t : BufferedTile) : Tile :=
  ⟨t.id, t.geometry, t.date⟩

/-- The spatial join `gpd.sjoin(ais, sat_tiles, predicate="within")`: one
output row per (report, footprint) pair whose report point, built by
`points_from_xy(ais.lon, ais.lat)`, lies within the footprint geometry. -/
def sjoinWithin (ais : List Report) (tiles : List BufferedTile) :
    List (Report × BufferedTile) :=
  ais.flatMap fun r =>
    (tiles.filter fun t => pointWithin r.lon r.lat t.geometry).map fun t => (r, t)

/-- The temporal filter
`(utc >= buffer_start_time) & (utc <= buffer_end_time)`, both comparisons
non-strict. -/
def temporalKeep (p : Report × BufferedTile) : Bool :=
  decide (p.2.buffer_start_time ≤ p.1.utc ∧ p.1.utc ≤ p.2.buffer_end_time)

/-- The join stage of `build_chips`: buffer columns assigned, spatial join,
temporal filter. -/
def joinPairs (ais : List Report) (sat_tiles : List Tile) :
    List (Report × BufferedTile) :=
  (sjoinWithin ais (sat_tiles.map addBuffer)).filter temporalKeep

/-- One row of the frame returned by `build_chips`: the report columns with
`utc` renamed to `start_time`, and the joined footprint columns with `date`
renamed to `pred_time` (the joined footprint geometry column is dropped by
`sjoin`, which keeps the left frame's point geometry).  The derived columns
`time_delta`, `travelled`, `pred_lat`, `pred_lon` are embedded below as
functions of the row. -/
structure MatchRow where
  mmsi : ℤ
  ping : ℕ
  start_time : ℤ
  lat : ℚ
  lon : ℚ
  sog : ℚ
  cog : ℚ
  heading : Option ℚ
  length : ℚ
  tile_id : String
  pred_time : ℤ
  buffer_start_time : ℤ
  buffer_end_time : ℤ
deriving DecidableEq, Repr

/-- Assembles the joined row for one qualifying (report, footprint) pair,
performing the `utc → start_time` and `date → pred_time` renames. -/
def mkMatchRow (p : Report × BufferedTile) : MatchRow :=
  { mmsi := p.1.mmsi, ping := p.1.ping, start_time := p.1.utc,
    lat := p.1.lat, lon := p.1.lon, sog := p.1.sog, cog := p.1.cog,
    heading := p.1.heading, length := p.1.length,
    tile_id := p.2.id, pred_time := p.2.date,
    buffer_start_time := p.2.buffer_start_time,
    buffer_end_time := p.2.buffer_end_time }

/-- The full effect of one `build_chips` call, with the mutation of the
`sat_tiles` argument made explicit by state passing: the returned triple is
(result rows, post-state of the `sat_tiles` frame, emitted diagnostics).
`build_chips` assigns the two buffer columns on the frame it was passed (no
copy is taken), so the post-state carries them; it emits no diagnostics (the
`logging` module is imported by `pipeline.py` but never called here). -/
def build_chips_run (ais : List Report) (sat_tiles : List Tile) :
    List MatchRow × List BufferedTile × List String :=
  let buffered := sat_tiles.map addBuffer
  let joined := (sjoinWithin ais buffered).filter temporalKeep
  (joined.map mkMatchRow, buffered, [])

/-- The frame returned by `build_chips`. -/
def build_chips (ais : List Report) (sat_tiles : List Tile) : List MatchRow :=
  (build_chips_run ais sat_tiles).1

/-- The state of the caller's `sat_tiles` frame after `build_chips` returns. -/
def build_chips_tilesAfter (ais : List Report) (sat_tiles : List Tile) :
    List BufferedTile :=
  (build_chips_run ais sat_tiles).2.1

/-- The diagnostics emitted by one `build_chips` call. -/
def build_chips_diagnostics (ais : List Report) (sat_tiles : List Tile) :
    List String :=
  (build_chips_run ais sat_tiles).2.2

/-- The derived column
`time_delta = (pred_time - start_time).dt.total_seconds()`, in seconds. -/
def MatchRow.time_delta (m : MatchRow) : ℤ :=
  m.pred_time - m.start_time

/-- The derived column
`travelled = (sog * KNOTS_IN_KM) * (time_delta / SECONDS_IN_HOUR)` with
`KNOTS_IN_KM = 1.852` and `SECONDS_IN_HOUR = 3600`: signed distance in km. -/
def MatchRow.travelled (m : MatchRow) : ℚ :=
  (m.sog * 1.852) * ((m.time_delta : ℚ) / 3600)

/-- Degrees to radians, `np.radians`. -/
noncomputable def radians (x : ℚ) : ℝ :=
  (x : ℝ) * Real.pi / 180

/-- The derived column
`pred_lat = lat + (travelled * cos(radians(cog))) / KM_PER_DEGREE` with
`KM_PER_DEGREE = 111.32`. -/
noncomputable def MatchRow.pred_lat (m : MatchRow) : ℝ :=
  (m.lat : ℝ) + ((m.travelled : ℝ) * Real.cos (radians m.cog)) / 111.32

/-- The derived column
`pred_lon = lon + (travelled * sin(radians(cog))) / (KM_PER_DEGREE * cos(radians(lat)))`. -/
noncomputable def MatchRow.pred_lon (m : MatchRow) : ℝ :=
  (m.lon : ℝ) +
    ((m.travelled : ℝ) * Real.sin (radians m.cog)) /
      (111.32 * Real.cos (radians m.lat))

/-- Modelled from the spec: the reference brute-force join of §8
*Completeness* — every (report, footprint) pair such that the report point
is within the footprint geometry and `|capture_time - report.timestamp|` is
at most 300 seconds, directly over all pairs. -/
def referenceJoin (ais : List Report) (sat_tiles : List Tile) :
    List (Report × Tile) :=
  ais.flatMap fun r =>
    (sat_tiles.filter fun t =>
        pointWithin r.lon r.lat t.geometry && decide (|t.date - r.utc| ≤ 300)).map
      fun t => (r, t)


/-! ### Lemmas about the join stage -/

theorem build_chips_eq_map_joinPairs (ais : List Report) (sat_tiles : List Tile) :
    build_chips ais sat_tiles = (joinPairs ais sat_tiles).map mkMatchRow := rfl

theorem addBuffer_geometry (t : Tile) : (addBuffer t).geometry = t.geometry := rfl

theorem toTile_addBuffer (t : Tile) : (addBuffer t).toTile = t := rfl

theorem addBuffer_injective : Function.Injective addBuffer :=
  Function.LeftInverse.injective (g := BufferedTile.toTile) toTile_addBuffer

theorem temporalKeep_addBuffer (r : Report) (t : Tile) :
    temporalKeep (r, addBuffer t) = decide (|t.date - r.utc| ≤ 300) := by
  simp only [temporalKeep, addBuffer, bufferSeconds]
  rw [decide_eq_decide, abs_le]
  omega

theorem joinPairs_eq_reference (ais : List Report) (sat_tiles : List Tile) :
    joinPairs ais sat_tiles
      = (referenceJoin ais sat_tiles).map fun p => (p.1, addBuffer p.2) := by
  unfold joinPairs sjoinWithin referenceJoin
  rw [List.filter_flatMap, List.map_flatMap]
  congr 1
  funext r
  rw [List.filter_map, List.filter_filter, List.filter_map, List.map_map, List.map_map]
  simp only [Function.comp]
  apply congrArg₂ List.map
  · funext t
    rfl
  · apply List.filter_congr
    intro t _
    simp only [Function.comp_apply]
    rw [temporalKeep_addBuffer, addBuffer_geometry, Bool.and_comm]

theorem mem_referenceJoin {ais : List Report} {sat_tiles : List Tile}
    {r : Report} {t : Tile} :
    (r, t) ∈ referenceJoin ais sat_tiles ↔
      r ∈ ais ∧ t ∈ sat_tiles ∧
        pointWithin r.lon r.lat t.geometry = true ∧ |t.date - r.utc| ≤ 300 := by
  simp only [referenceJoin, List.mem_flatMap, List.mem_map, List.mem_filter,
    Prod.mk.injEq, Bool.and_eq_true, decide_eq_true_eq]
  constructor
  · rintro ⟨r', hr', t', ⟨ht', hw, hd⟩, he1, he2⟩
    exact ⟨he1 ▸ hr', he2 ▸ ht', he1 ▸ he2 ▸ hw, he1 ▸ he2 ▸ hd⟩
  · rintro ⟨hr, ht, hw, hd⟩
    exact ⟨r, hr, t, ⟨ht, hw, hd⟩, rfl, rfl⟩

theorem countP_eq_one_of_nodup {α : Type} [DecidableEq α] {l : List α} {a : α}
    (hn : l.Nodup) (ha : a ∈ l) :
    l.countP (fun x => decide (x = a)) = 1 := by
  induction l with
  | nil => cases ha
  | cons b bs ih =>
    rw [List.countP_cons]
    rcases List.mem_cons.mp ha with he | hmem
    · subst he
      have hz : bs.countP (fun x => decide (x = a)) = 0 :=
        List.countP_eq_zero.mpr fun x hx hxa => by
          exact (List.nodup_cons.mp hn).1 ((of_decide_eq_true hxa) ▸ hx)
      simp [hz]
    · have hne : b ≠ a := fun he => (List.nodup_cons.mp hn).1 (he ▸ hmem)
      rw [ih (List.nodup_cons.mp hn).2 hmem]
      simp [hne]

theorem count_referenceJoin {ais : List Report} {sat_tiles : List Tile}
    {r : Report} {t : Tile} (hA : ais.Nodup) (hT : sat_tiles.Nodup)
    (hr : r ∈ ais) (ht : t ∈ sat_tiles) :
    (referenceJoin ais sat_tiles).countP (fun p => decide (p = (r, t)))
      = if pointWithin r.lon r.lat t.geometry = true ∧ |t.date - r.utc| ≤ 300
        then 1 else 0 := by
  induction ais with
  | nil => cases hr
  | cons a as ih =>
    have hsplit : referenceJoin (a :: as) sat_tiles
        = ((sat_tiles.filter fun u =>
              pointWithin a.lon a.lat u.geometry &&
                decide (|u.date - a.utc| ≤ 300)).map fun u => (a, u))
          ++ referenceJoin as sat_tiles := by
      simp [referenceJoin]
    rw [hsplit, List.countP_append]
    rcases List.mem_cons.mp hr with he | hmem
    · subst he
      have hnot : r ∉ as := (List.nodup_cons.mp hA).1
      have hz : (referenceJoin as sat_tiles).countP (fun p => decide (p = (r, t))) = 0 :=
        List.countP_eq_zero.mpr fun p hp hpe => by
          have : p = (r, t) := of_decide_eq_true hpe
          subst this
          exact hnot (mem_referenceJoin.mp hp).1
      rw [hz, Nat.add_zero, List.countP_map]
      have hcong : ((sat_tiles.filter fun u =>
            pointWithin r.lon r.lat u.geometry && decide (|u.date - r.utc| ≤ 300)).countP
              ((fun p => decide (p = (r, t))) ∘ fun u => (r, u)))
          = ((sat_tiles.filter fun u =>
            pointWithin r.lon r.lat u.geometry && decide (|u.date - r.utc| ≤ 300)).countP
              fun u => decide (u = t)) := by
        apply List.countP_congr
        intro u _
        simp [Function.comp]
      rw [hcong]
      by_cases hq : pointWithin r.lon r.lat t.geometry = true ∧ |t.date - r.utc| ≤ 300
      · rw [if_pos hq]
        refine countP_eq_one_of_nodup (hT.filter _) (List.mem_filter.mpr ⟨ht, ?_⟩)
        simpa using hq
      · rw [if_neg hq]
        refine List.countP_eq_zero.mpr fun u hu hue => ?_
        have : u = t := of_decide_eq_true hue
        subst this
        exact hq (by simpa using (List.mem_filter.mp hu).2)
    · have hane : a ≠ r := fun he => (List.nodup_cons.mp hA).1 (he ▸ hmem)
      have hz : ((sat_tiles.filter fun u =>
            pointWithin a.lon a.lat u.geometry &&
              decide (|u.date - a.utc| ≤ 300)).map fun u => (a, u)).countP
            (fun p => decide (p = (r, t))) = 0 :=
        List.countP_eq_zero.mpr fun p hp hpe => by
          have hpe' : p = (r, t) := of_decide_eq_true hpe
          rcases List.mem_map.mp hp with ⟨u, -, he⟩
          exact hane (by simpa using congrArg Prod.fst (he.trans hpe'))
      rw [hz, Nat.zero_add]
      exact ih (List.nodup_cons.mp hA).2 hmem

/-! ### Example fixtures used by witness theorems -/

/-- A sample cleaned report: point (lon 20, lat 10), timestamp 1000 s. -/
def exReport : Report :=
  { mmsi := 100, ping := 0, utc := 1000, lat := 10, lon := 20, sog := 5,
    cog := 90, heading := none, length := 100 }

/-- A sample footprint rectangle whose interior contains (lon 20, lat 10). -/
def exGeom : Geometry :=
  { lonMin := 15, lonMax := 25, latMin := 5, latMax := 15 }

/-- A footprint captured 100 s after `exReport`, inside the 300 s window. -/
def exTileNear : Tile :=
  { id := "tileA", geometry := exGeom, date := 1100 }

/-- A footprint captured 1000 s after `exReport`, outside the 300 s window. -/
def exTileFar : Tile :=
  { id := "tileB", geometry := exGeom, date := 2000 }

/-! ### C1 -/

/-- C1: on duplicate-free input frames, the implemented join (spatial `within`
join followed by the temporal buffer filter) is extensionally equal to the
brute-force reference join over all (report, footprint) pairs, and each pair
satisfying both predicates is matched exactly once while any pair failing
either predicate is never matched. -/
theorem C1_matcher_equals_bruteforce_join (ais : List Report) (sat_tiles : List Tile)
    (hA : ais.Nodup) (hT : sat_tiles.Nodup) :
    build_chips ais sat_tiles
        = (referenceJoin ais sat_tiles).map (fun p => mkMatchRow (p.1, addBuffer p.2)) ∧
      ∀ r ∈ ais, ∀ t ∈ sat_tiles,
        (joinPairs ais sat_tiles).countP (fun p => decide (p = (r, addBuffer t)))
          = if pointWithin r.lon r.lat t.geometry = true ∧ |t.date - r.utc| ≤ 300
            then 1 else 0 := by
  constructor
  · rw [build_chips_eq_map_joinPairs, joinPairs_eq_reference, List.map_map]
    rfl
  · intro r hr t ht
    rw [joinPairs_eq_reference, List.countP_map]
    have hcong : (referenceJoin ais sat_tiles).countP
          ((fun p => decide (p = (r, addBuffer t))) ∘ fun p => (p.1, addBuffer p.2))
        = (referenceJoin ais sat_tiles).countP (fun p => decide (p = (r, t))) := by
      apply List.countP_congr
      intro p _
      simp [Function.comp, Prod.ext_iff, addBuffer_injective.eq_iff]
    rw [hcong]
    exact count_referenceJoin hA hT hr ht

/-- Witness for C1 at a concrete one-report, two-footprint input. -/
theorem C1_matcher_equals_bruteforce_join_witness :
    ([exReport].Nodup ∧ [exTileNear, exTileFar].Nodup) ∧
      (build_chips [exReport] [exTileNear, exTileFar]
          = (referenceJoin [exReport] [exTileNear, exTileFar]).map
              (fun p => mkMatchRow (p.1, addBuffer p.2)) ∧
        ∀ r ∈ [exReport], ∀ t ∈ [exTileNear, exTileFar],
          (joinPairs [exReport] [exTileNear, exTileFar]).countP
              (fun p => decide (p = (r, addBuffer t)))
            = if pointWithin r.lon r.lat t.geometry = true ∧ |t.date - r.utc| ≤ 300
              then 1 else 0) :=
  ⟨⟨by decide, by decide⟩,
    C1_matcher_equals_bruteforce_join _ _ (by decide) (by decide)⟩

theorem mem_joinPairs {ais : List Report} {sat_tiles : List Tile}
    {r : Report} {bt : BufferedTile} :
    (r, bt) ∈ joinPairs ais sat_tiles ↔
      r ∈ ais ∧ ∃ t ∈ sat_tiles, bt = addBuffer t ∧
        pointWithin r.lon r.lat t.geometry = true ∧ |t.date - r.utc| ≤ 300 := by
  rw [joinPairs_eq_reference]
  constructor
  · intro h
    rcases List.mem_map.mp h with ⟨p, hp, he⟩
    obtain ⟨hr, ht, hw, hd⟩ := mem_referenceJoin.mp hp
    have he1 : p.1 = r := congrArg Prod.fst he
    have he2 : addBuffer p.2 = bt := congrArg Prod.snd he
    subst he1 he2
    exact ⟨hr, p.2, ht, rfl, hw, hd⟩
  · rintro ⟨hr, t, ht, rfl, hw, hd⟩
    exact List.mem_map.mpr ⟨(r, t), mem_referenceJoin.mpr ⟨hr, ht, hw, hd⟩, rfl⟩

/-- A footprint captured exactly 300 s after `exReport`: on the window edge. -/
def exTileEdge : Tile :=
  { id := "tileC", geometry := exGeom, date := 1300 }

/-- A footprint captured 120 s before `exReport`. -/
def exTileBefore : Tile :=
  { id := "tileD", geometry := exGeom, date := 880 }

/-! ### C3 -/

/-- C3: every Match has |time_delta| at most 300 s, and the window is closed
on both ends — a report exactly 300 s from capture still joins (when the
containment predicate holds), while a report strictly outside the window
never yields a Match. -/
theorem C3_temporal_window_closed (ais : List Report) (sat_tiles : List Tile) :
    (∀ m ∈ build_chips ais sat_tiles, |m.time_delta| ≤ 300) ∧
      ∀ r ∈ ais, ∀ t ∈ sat_tiles,
        pointWithin r.lon r.lat t.geometry = true →
          ((t.date = r.utc - 300 ∨ t.date = r.utc + 300) →
              mkMatchRow (r, addBuffer t) ∈ build_chips ais sat_tiles) ∧
            (300 < |t.date - r.utc| →
              (r, addBuffer t) ∉ joinPairs ais sat_tiles) := by
  constructor
  · intro m hm
    rw [build_chips_eq_map_joinPairs] at hm
    rcases List.mem_map.mp hm with ⟨p, hp, rfl⟩
    obtain ⟨-, t, -, hbt, -, hd⟩ := mem_joinPairs.mp hp
    have he : (mkMatchRow p).time_delta = p.2.date - p.1.utc := rfl
    rw [he, hbt]
    exact hd
  · intro r hr t ht hw
    constructor
    · intro hdate
      rw [build_chips_eq_map_joinPairs]
      refine List.mem_map.mpr ⟨(r, addBuffer t), ?_, rfl⟩
      refine mem_joinPairs.mpr ⟨hr, t, ht, rfl, hw, ?_⟩
      rw [abs_le]
      omega
    · intro hfar hmem
      obtain ⟨-, t', -, hbt, -, hd⟩ := mem_joinPairs.mp hmem
      have he : t' = t := addBuffer_injective hbt.symm
      subst he
      rw [abs_le] at hd
      rw [lt_abs] at hfar
      omega
  

/-- Witness for C3: the footprint exactly 300 s after the report joins, the
one 1000 s away does not. -/
theorem C3_temporal_window_closed_witness :
    pointWithin exReport.lon exReport.lat exTileEdge.geometry = true ∧
      exTileEdge.date = exReport.utc + 300 ∧
      mkMatchRow (exReport, addBuffer exTileEdge)
          ∈ build_chips [exReport] [exTileEdge, exTileFar] ∧
      300 < |exTileFar.date - exReport.utc| ∧
      (exReport, addBuffer exTileFar) ∉ joinPairs [exReport] [exTileEdge, exTileFar] :=
  ⟨by decide, by decide,
    ((C3_temporal_window_closed [exReport] [exTileEdge, exTileFar]).2 exReport
        (by decide) exTileEdge (by decide) (by decide)).1 (Or.inr (by decide)),
    by decide,
    ((C3_temporal_window_closed [exReport] [exTileEdge, exTileFar]).2 exReport
        (by decide) exTileFar (by decide) (by decide)).2 (by decide)⟩

/-! ### C4 -/

/-- C4: every Match whose capture time precedes the report timestamp —
any negative `time_delta` — still receives the dead-reckoning prediction by
the same formulas as any other row, with a travelled distance signed like
`time_delta` (strictly negative whenever the reported speed is positive);
no such row is dropped (the prediction stage is a total per-row map), and
every in-window pair with a negative delta joins rather than being
rejected. -/
theorem C4_negative_time_delta_predicts (ais : List Report) (sat_tiles : List Tile) :
    (build_chips ais sat_tiles).length = (joinPairs ais sat_tiles).length ∧
      (∀ m ∈ build_chips ais sat_tiles, m.time_delta < 0 →
        (0 < m.sog → m.travelled < 0) ∧
          m.pred_lat
              = (m.lat : ℝ) + ((m.travelled : ℝ) * Real.cos (radians m.cog)) / 111.32 ∧
          m.pred_lon
              = (m.lon : ℝ) +
                  ((m.travelled : ℝ) * Real.sin (radians m.cog)) /
                    (111.32 * Real.cos (radians m.lat))) ∧
      ∀ r ∈ ais, ∀ t ∈ sat_tiles,
        pointWithin r.lon r.lat t.geometry = true → -300 ≤ t.date - r.utc →
          t.date - r.utc < 0 →
            mkMatchRow (r, addBuffer t) ∈ build_chips ais sat_tiles := by
  refine ⟨by rw [build_chips_eq_map_joinPairs, List.length_map], ?_, ?_⟩
  · intro m _ htd
    refine ⟨?_, rfl, rfl⟩
    intro hs
    have h1 : ((m.time_delta : ℤ) : ℚ) < 0 := by exact_mod_cast htd
    have h2 : ((m.time_delta : ℤ) : ℚ) / 3600 < 0 := div_neg_of_neg_of_pos h1 (by norm_num)
    exact mul_neg_of_pos_of_neg (mul_pos hs (by norm_num)) h2
  · intro r hr t ht hw hlo hhi
    rw [build_chips_eq_map_joinPairs]
    refine List.mem_map.mpr ⟨(r, addBuffer t), ?_, rfl⟩
    refine mem_joinPairs.mpr ⟨hr, t, ht, rfl, hw, ?_⟩
    rw [abs_le]
    omega

/-- Witness for C4 at the footprint captured 120 s before `exReport`: the
negative-delta row joins and its travelled distance is negative. -/
theorem C4_negative_time_delta_predicts_witness :
    mkMatchRow (exReport, addBuffer exTileBefore) ∈ build_chips [exReport] [exTileBefore] ∧
      (mkMatchRow (exReport, addBuffer exTileBefore)).time_delta < 0 ∧
      (mkMatchRow (exReport, addBuffer exTileBefore)).travelled < 0 := by
  have h := C4_negative_time_delta_predicts [exReport] [exTileBefore]
  have hmem := h.2.2 exReport (by decide) exTileBefore (by decide) (by decide)
    (by decide) (by decide)
  exact ⟨hmem, by decide, (h.2.1 _ hmem (by decide)).1 (by decide)⟩


/-! ### C8 -/

/-- A second sample report, distinct from `exReport`. -/
def exReport2 : Report :=
  { mmsi := 200, ping := 0, utc := 1200, lat := 12, lon := 22, sog := 7,
    cog := 180, heading := some 45, length := 120 }

/-- C8: the Matcher is deterministic up to row order — on inputs equal as
unordered collections it produces outputs equal as unordered collections. -/
theorem C8_matcher_deterministic (ais₁ ais₂ : List Report)
    (tiles₁ tiles₂ : List Tile) (hA : ais₁.Perm ais₂) (hT : tiles₁.Perm tiles₂) :
    (build_chips ais₁ tiles₁).Perm (build_chips ais₂ tiles₂) := by
  rw [build_chips_eq_map_joinPairs, build_chips_eq_map_joinPairs]
  apply List.Perm.map
  unfold joinPairs sjoinWithin
  apply List.Perm.filter
  refine (hA.flatMap_right _).trans (List.Perm.flatMap_left _ ?_)
  intro r _
  exact ((hT.map addBuffer).filter _).map _

/-- Witness for C8: swapped report and footprint lists give permuted output. -/
theorem C8_matcher_deterministic_witness :
    ([exReport, exReport2].Perm [exReport2, exReport] ∧
        [exTileNear, exTileFar].Perm [exTileFar, exTileNear]) ∧
      (build_chips [exReport, exReport2] [exTileNear, exTileFar]).Perm
        (build_chips [exReport2, exReport] [exTileFar, exTileNear]) :=
  ⟨⟨List.Perm.swap _ _ _, List.Perm.swap _ _ _⟩,
    C8_matcher_deterministic _ _ _ _ (List.Perm.swap _ _ _) (List.Perm.swap _ _ _)⟩

/-! ### C9 -/

/-- C9: `build_chips` updates the `sat_tiles` frame it was passed: after the
call the caller's footprint collection carries the two new columns
`buffer_start_time = date - 300` and `buffer_end_time = date + 300` on every
row (the underlying footprint fields are otherwise preserved), so the input
frame does not remain unchanged. -/
theorem C9_build_chips_updates_sat_tiles (ais : List Report) (sat_tiles : List Tile) :
    build_chips_tilesAfter ais sat_tiles = sat_tiles.map addBuffer ∧
      (build_chips_tilesAfter ais sat_tiles).map BufferedTile.toTile = sat_tiles ∧
      ∀ t : Tile, (addBuffer t).buffer_start_time = t.date - 300 ∧
        (addBuffer t).buffer_end_time = t.date + 300 := by
  refine ⟨rfl, ?_, fun t => ⟨rfl, rfl⟩⟩
  rw [show build_chips_tilesAfter ais sat_tiles = sat_tiles.map addBuffer from rfl,
    List.map_map, show BufferedTile.toTile ∘ addBuffer = id from funext toTile_addBuffer,
    List.map_id]

/-! ### C10 -/

/-- C10: containment is boundary-exclusive — a report point exactly on a
footprint's polygon boundary never joins with that footprint, and every
joined pair satisfies interior containment. -/
theorem C10_within_boundary_exclusive (ais : List Report) (sat_tiles : List Tile)
    (r : Report) (t : Tile)
    (hb : pointOnBoundary r.lon r.lat t.geometry = true) :
    (r, addBuffer t) ∉ joinPairs ais sat_tiles ∧
      ∀ p ∈ joinPairs ais sat_tiles,
        pointWithin p.1.lon p.1.lat p.2.geometry = true := by
  constructor
  · intro hm
    obtain ⟨-, t', -, hbt, hw, -⟩ := mem_joinPairs.mp hm
    have he : t' = t := addBuffer_injective hbt.symm
    subst he
    simp only [pointOnBoundary, Bool.and_eq_true, Bool.not_eq_true'] at hb
    rw [hb.2] at hw
    cases hw
  · intro p hp
    obtain ⟨-, t', -, hbt, hw, -⟩ := mem_joinPairs.mp hp
    rw [hbt, addBuffer_geometry]
    exact hw

/-- A report whose point (lon 15, lat 10) lies exactly on the western edge of
`exGeom`. -/
def exReportOnEdge : Report :=
  { mmsi := 300, ping := 0, utc := 1000, lat := 10, lon := 15, sog := 5,
    cog := 90, heading := none, length := 100 }

/-- Witness for C10: the boundary point never joins. -/
theorem C10_within_boundary_exclusive_witness :
    pointOnBoundary exReportOnEdge.lon exReportOnEdge.lat exTileNear.geometry = true ∧
      (exReportOnEdge, addBuffer exTileNear) ∉ joinPairs [exReportOnEdge] [exTileNear] :=
  ⟨by decide,
    (C10_within_boundary_exclusive [exReportOnEdge] [exTileNear] exReportOnEdge exTileNear
        (by decide)).1⟩

/-! ### C2 -/

/-- C2: the prediction columns follow the stated dead-reckoning formulas
exactly, and on the analytic case (lat 0, lon 0, 10 knots, course 90°,
time_delta 360 s) the predicted latitude is 0 and the predicted longitude is
1.852/111.32 within 1e-6. -/
theorem C2_dead_reckoning_formulas (m : MatchRow)
    (hlat : m.lat = 0) (hlon : m.lon = 0) (hsog : m.sog = 10) (hcog : m.cog = 90)
    (htd : m.time_delta = 360) :
    (∀ x : MatchRow,
        x.pred_lat
            = (x.lat : ℝ) +
                ((x.sog : ℝ) * 1.852 * ((x.time_delta : ℝ) / 3600)) *
                  Real.cos ((x.cog : ℝ) * Real.pi / 180) / 111.32 ∧
          x.pred_lon
            = (x.lon : ℝ) +
                ((x.sog : ℝ) * 1.852 * ((x.time_delta : ℝ) / 3600)) *
                  Real.sin ((x.cog : ℝ) * Real.pi / 180) /
                    (111.32 * Real.cos ((x.lat : ℝ) * Real.pi / 180))) ∧
      m.pred_lat = 0 ∧ |m.pred_lon - 1.852 / 111.32| ≤ 1e-6 := by
  have hform : ∀ x : MatchRow,
      ((x.travelled : ℚ) : ℝ) = (x.sog : ℝ) * 1.852 * ((x.time_delta : ℝ) / 3600) := by
    intro x
    rw [MatchRow.travelled]
    push_cast
    ring
  refine ⟨fun x => ⟨?_, ?_⟩, ?_, ?_⟩
  · rw [MatchRow.pred_lat, hform, radians]
  · rw [MatchRow.pred_lon, hform, radians, radians]
  · have hcos : Real.cos (radians m.cog) = 0 := by
      rw [hcog, radians, show ((90 : ℚ) : ℝ) * Real.pi / 180 = Real.pi / 2 by
        push_cast; ring, Real.cos_pi_div_two]
    rw [MatchRow.pred_lat, hlat, hcos]
    norm_num
  · have hsin : Real.sin (radians m.cog) = 1 := by
      rw [hcog, radians, show ((90 : ℚ) : ℝ) * Real.pi / 180 = Real.pi / 2 by
        push_cast; ring, Real.sin_pi_div_two]
    have hcoslat : Real.cos (radians m.lat) = 1 := by
      rw [hlat, radians, show ((0 : ℚ) : ℝ) * Real.pi / 180 = 0 by push_cast; ring,
        Real.cos_zero]
    have ht : m.travelled = 1.852 := by
      rw [MatchRow.travelled, hsog, htd]
      norm_num
    rw [MatchRow.pred_lon, hlon, hsin, hcoslat, ht]
    norm_num

/-- The analytic-case Match row of C2: lat 0, lon 0, 10 knots due east,
captured 360 s after the report. -/
def exAnalyticRow : MatchRow :=
  { mmsi := 1, ping := 0, start_time := 0, lat := 0, lon := 0, sog := 10,
    cog := 90, heading := none, length := 100, tile_id := "tileA",
    pred_time := 360, buffer_start_time := 60, buffer_end_time := 660 }

/-- Witness for C2 at the concrete analytic-case row. -/
theorem C2_dead_reckoning_formulas_witness :
    (exAnalyticRow.lat = 0 ∧ exAnalyticRow.sog = 10 ∧ exAnalyticRow.cog = 90 ∧
        exAnalyticRow.time_delta = 360) ∧
      exAnalyticRow.pred_lat = 0 ∧ |exAnalyticRow.pred_lon - 1.852 / 111.32| ≤ 1e-6 :=
  ⟨⟨rfl, rfl, rfl, by decide⟩,
    (C2_dead_reckoning_formulas exAnalyticRow rfl rfl rfl rfl (by decide)).2⟩

/-! ### C5 -/

/-- A Match row at latitude 89.999°, 10 knots due east, captured 300 s after
the report. -/
def exNearPoleRow : MatchRow :=
  { mmsi := 2, ping := 0, start_time := 0, lat := 89999/1000, lon := 0, sog := 10,
    cog := 90, heading := none, length := 100, tile_id := "tileA",
    pred_time := 300, buffer_start_time := 0, buffer_end_time := 600 }

/-- C5 (refuting the claimed guard): at latitude 89.999° the code emits the
raw result of dividing by `cos(radians(lat))` — the Match row schema carries
no validity flag and no clamp is applied — and that raw predicted longitude
exceeds 180°, an out-of-range coordinate, silently. -/
theorem C5_no_near_pole_guard :
    exNearPoleRow.pred_lon
        = (exNearPoleRow.lon : ℝ) +
            ((exNearPoleRow.travelled : ℝ) * Real.sin (radians exNearPoleRow.cog)) /
              (111.32 * Real.cos (radians exNearPoleRow.lat)) ∧
      180 < exNearPoleRow.pred_lon := by
  refine ⟨rfl, ?_⟩
  have hcos : Real.cos (radians exNearPoleRow.lat) = Real.sin (Real.pi / 180000) := by
    rw [show radians exNearPoleRow.lat = Real.pi / 2 - Real.pi / 180000 by
          rw [radians, show exNearPoleRow.lat = (89999 / 1000 : ℚ) from rfl]
          push_cast
          ring,
      Real.cos_pi_div_two_sub]
  have hsin : Real.sin (radians exNearPoleRow.cog) = 1 := by
    rw [show radians exNearPoleRow.cog = Real.pi / 2 by
          rw [radians, show exNearPoleRow.cog = (90 : ℚ) from rfl]
          push_cast
          ring,
      Real.sin_pi_div_two]
  have htrav : ((exNearPoleRow.travelled : ℚ) : ℝ) = 463 / 300 := by
    have : exNearPoleRow.travelled = 463 / 300 := by
      rw [MatchRow.travelled]
      norm_num [MatchRow.time_delta, exNearPoleRow]
    rw [this]
    norm_num
  have hspos : 0 < Real.sin (Real.pi / 180000) :=
    Real.sin_pos_of_pos_of_lt_pi (by positivity)
      ((div_lt_self Real.pi_pos (by norm_num)))
  have hslt : Real.sin (Real.pi / 180000) < 3.15 / 180000 :=
    (Real.sin_lt (by positivity)).trans (by gcongr; exact Real.pi_lt_d2)
  have hpred : exNearPoleRow.pred_lon
      = (463 / 300 : ℝ) / (111.32 * Real.sin (Real.pi / 180000)) := by
    rw [MatchRow.pred_lon, hsin, hcos, htrav]
    norm_num [exNearPoleRow]
  rw [hpred]
  have hlt : (463 / 300 : ℝ) / (111.32 * (3.15 / 180000))
      < (463 / 300 : ℝ) / (111.32 * Real.sin (Real.pi / 180000)) := by
    apply div_lt_div_of_pos_left (by norm_num) (mul_pos (by norm_num) hspos)
    exact mul_lt_mul_of_pos_left hslt (by norm_num)
  have h180 : (180 : ℝ) < (463 / 300 : ℝ) / (111.32 * (3.15 / 180000)) := by
    norm_num
  linarith

/-! ### C6 -/

/-- A degenerate rectangle with an empty interior. -/
def exGeomEmpty : Geometry :=
  { lonMin := 25, lonMax := 15, latMin := 5, latMax := 15 }

/-- A footprint with empty geometry, temporally inside `exReport`'s window. -/
def exTileBad : Tile :=
  { id := "tileE", geometry := exGeomEmpty, date := 1100 }

theorem pointWithin_of_isEmptyGeom {lon lat : ℚ} {g : Geometry}
    (h : g.isEmptyGeom = true) : pointWithin lon lat g = false := by
  simp only [Geometry.isEmptyGeom, decide_eq_true_eq] at h
  simp only [pointWithin, decide_eq_false_iff_not]
  rintro ⟨h1, h2, h3, h4⟩
  rcases h with h | h
  · linarith
  · linarith

/-- Counterexample to C6 as stated: with an empty-geometry footprint present
(and matches still produced for the good footprint), the diagnostics output
of `build_chips` is empty — no diagnostic is surfaced for the skipped
footprint. -/
theorem C6_no_diagnostic_for_bad_geometry :
    exTileBad.geometry.isEmptyGeom = true ∧
      build_chips_diagnostics [exReport] [exTileBad, exTileNear] = [] ∧
      build_chips [exReport] [exTileBad, exTileNear]
        = [mkMatchRow (exReport, addBuffer exTileNear)] := by
  refine ⟨by decide, rfl, by decide⟩

/-- C6 as amended: a footprint with empty (degenerate) geometry contributes
no Matches and leaves the Matches of all remaining footprints unchanged —
the batch is not aborted — but it is skipped silently: no diagnostic is
emitted. -/
theorem C6_empty_geometry_skipped_silently (ais : List Report) (sat_tiles : List Tile) :
    build_chips ais sat_tiles
        = build_chips ais (sat_tiles.filter fun t => !t.geometry.isEmptyGeom) ∧
      build_chips_diagnostics ais sat_tiles = [] := by
  refine ⟨?_, rfl⟩
  rw [build_chips_eq_map_joinPairs, build_chips_eq_map_joinPairs]
  congr 1
  rw [joinPairs_eq_reference, joinPairs_eq_reference]
  congr 1
  unfold referenceJoin
  congr 1
  funext r
  congr 1
  rw [List.filter_filter]
  apply List.filter_congr
  intro t _
  by_cases he : t.geometry.isEmptyGeom
  · rw [pointWithin_of_isEmptyGeom he]
    simp
  · simp [he]

/-! ### C7 -/

theorem lexLe_trans : ∀ a b c : RawReport,
    lexLe a b = true → lexLe b c = true → lexLe a c = true := by
  intro a b c
  simp only [lexLe, decide_eq_true_eq]
  omega

theorem lexLe_total : ∀ a b : RawReport, (lexLe a b || lexLe b a) = true := by
  intro a b
  simp only [lexLe, Bool.or_eq_true, decide_eq_true_eq]
  omega

theorem cumcountFrom_map_fst (cnt : ℤ → ℕ) (l : List RawReport) :
    (cumcountFrom cnt l).map Prod.fst = l := by
  induction l generalizing cnt with
  | nil => rfl
  | cons r rs ih => simp [cumcountFrom, ih]

theorem cumcountFrom_filter_snd (cnt : ℤ → ℕ) (l : List RawReport) (v : ℤ) :
    ((cumcountFrom cnt l).filter fun p => decide (p.1.mmsi = v)).map Prod.snd
      = List.range' (cnt v) (l.countP fun r => decide (r.mmsi = v)) := by
  induction l generalizing cnt with
  | nil => rfl
  | cons r rs ih =>
    simp only [cumcountFrom, List.filter_cons, List.countP_cons]
    by_cases hv : r.mmsi = v
    · rw [if_pos (by simpa using hv), if_pos (by simpa using hv), List.map_cons, ih]
      subst hv
      simp [List.range'_succ]
    · rw [if_neg (by simpa using hv), if_neg (by simpa using hv), Nat.add_zero, ih,
        if_neg (fun h => hv h.symm)]

/-- C7: in the frame produced by ingestion, for every vessel the `ping`
values are the dense enumeration 0, 1, 2, … of that vessel's rows, listed in
ascending `utc` order — `(mmsi, ping)` is a composite identity encoding
temporal rank. -/
theorem C7_ping_dense_time_ordered (rows : List RawReport) (v : ℤ) :
    ((build rows).filter fun r => decide (r.mmsi = v)).map Report.ping
        = List.range (((build rows).filter fun r => decide (r.mmsi = v)).length) ∧
      List.Sorted (· ≤ ·)
        (((build rows).filter fun r => decide (r.mmsi = v)).map Report.utc) := by
  have hbuild : build rows
      = (cumcountFrom (fun _ => 0)
          ((((rows.filter keepTransceiverA).filter keepSog).filter
              keepLength).mergeSort lexLe)).map (fun p => mkReport p.1 p.2) := rfl
  set sorted :=
    (((rows.filter keepTransceiverA).filter keepSog).filter keepLength).mergeSort lexLe
    with hsorted
  have h1 : (build rows).filter (fun r => decide (r.mmsi = v))
      = ((cumcountFrom (fun _ => 0) sorted).filter
          fun p => decide (p.1.mmsi = v)).map (fun p => mkReport p.1 p.2) := by
    rw [hbuild, List.filter_map]
    rfl
  have hping : ((build rows).filter fun r => decide (r.mmsi = v)).map Report.ping
      = ((cumcountFrom (fun _ => 0) sorted).filter
          fun p => decide (p.1.mmsi = v)).map Prod.snd := by
    rw [h1, List.map_map]
    rfl
  have hsnd := cumcountFrom_filter_snd (fun _ => 0) sorted v
  constructor
  · have hlen : (((build rows).filter fun r => decide (r.mmsi = v)).length)
        = sorted.countP fun r => decide (r.mmsi = v) := by
      rw [← List.length_map (((build rows).filter fun r => decide (r.mmsi = v)))
          Report.ping, hping, hsnd, List.length_range']
    rw [hping, hsnd, hlen, List.range_eq_range']
  · have hpw : List.Pairwise (fun a b : RawReport => lexLe a b = true) sorted :=
      List.sorted_mergeSort lexLe_trans lexLe_total _
    have hfst := cumcountFrom_map_fst (fun _ => 0) sorted
    have hpwL : List.Pairwise
        (fun p q : RawReport × ℕ => lexLe p.1 q.1 = true)
        (cumcountFrom (fun _ => 0) sorted) := by
      rw [← hfst] at hpw
      exact List.pairwise_map.mp hpw
    have hpwF := hpwL.filter fun p => decide (p.1.mmsi = v)
    have hpwU : List.Pairwise (fun p q : RawReport × ℕ => p.1.utc ≤ q.1.utc)
        ((cumcountFrom (fun _ => 0) sorted).filter fun p => decide (p.1.mmsi = v)) := by
      refine List.Pairwise.imp_of_mem ?_ hpwF
      intro a b ha hb hle
      have hav : a.1.mmsi = v := of_decide_eq_true (List.mem_filter.mp ha).2
      have hbv : b.1.mmsi = v := of_decide_eq_true (List.mem_filter.mp hb).2
      simp only [lexLe, decide_eq_true_eq] at hle
      omega
    have hutc : ((build rows).filter fun r => decide (r.mmsi = v)).map Report.utc
        = ((cumcountFrom (fun _ => 0) sorted).filter
            fun p => decide (p.1.mmsi = v)).map (fun p => p.1.utc) := by
      rw [h1, List.map_map]
      rfl
    rw [hutc]
    exact List.pairwise_map.mpr hpwU
